import Mathlib

/-!
Verification of the Review Prioritization Engine of the Denial-risk-optimizer
repository.  The embedded functions are translated from
`src/score_and_optimize.py` (cost/value estimators, ILP knapsack) and
`app/streamlit_app.py` (cost estimator, priority score, greedy selection).
Python/pandas floats are modelled as rationals (ℚ); integer columns as ℤ;
a pandas cell that is NaN / unparsable is modelled as `Option.none`.
-/

namespace DenialRisk

/-- `pat` is a prefix of `s`, on character lists. -/
def charListPre : List Char → List Char → Bool
  | [], _ => true
  | _ :: _, [] => false
  | a :: as, b :: bs => a == b && charListPre as bs

/-- `pat` occurs as a contiguous substring of `s`, on character lists. -/
def charListSub (pat : List Char) : List Char → Bool
  | [] => charListPre pat []
  | b :: bs => charListPre pat (b :: bs) || charListSub pat bs

/-- Python `str.lower()`, character by character. -/
def strToLower (s : String) : String := ⟨s.data.map Char.toLower⟩

/-- Python `str.strip()`: drop leading and trailing whitespace. -/
def strTrim (s : String) : String :=
  ⟨((s.data.dropWhile Char.isWhitespace).reverse.dropWhile Char.isWhitespace).reverse⟩

/-- Case-insensitive substring test: embeds
`Series.str.contains("Commercial", case=False)` for a fixed plain
(non-regex) pattern: both sides are lowered and we test containment. -/
def strContainsCI (s pat : String) : Bool :=
  charListSub (strToLower pat).data (strToLower s).data

/-- pandas `astype(str)` on a possibly-missing cell: a NaN cell is rendered
as the string "nan"; hence `na=False` in the source is never exercised. -/
def pdAstypeStr : Option String → String
  | none => "nan"
  | some s => s

/-- `np.clip (x, lo, hi)` on integers. -/
def clipInt (lo hi x : ℤ) : ℤ := max lo (min hi x)

/-- The pre-clip review cost of `estimate_review_minutes`
(`app/streamlit_app.py` lines 33-35): base 10, +3 when "Insurance Type"
contains "Commercial" case-insensitively, +2 when "Follow-up Required"
lowercases to "yes". -/
def reviewMinutesBase (insuranceType followupRequired : Option String) : ℤ :=
  10 + (if strContainsCI (pdAstypeStr insuranceType) "Commercial" then 1 else 0) * 3
     + (if strToLower (pdAstypeStr followupRequired) == "yes" then 1 else 0) * 2

/-- `estimate_review_minutes` (`app/streamlit_app.py` lines 32-36):
the base, clipped by `np.clip(base, 6, 20)`. -/
def estimate_review_minutes (insuranceType followupRequired : Option String) : ℤ :=
  clipInt 6 20 (reviewMinutesBase insuranceType followupRequired)

/-- `followup_flag` as derived in `src/clean_validate.py` lines 27-32:
1 when the trimmed lowercased "Follow-up Required" is one of
"yes"/"y"/"true"/"1", else 0. -/
def followup_flag (followupRequired : Option String) : ℤ :=
  if strToLower (strTrim (pdAstypeStr followupRequired)) ∈ ["yes", "y", "true", "1"] then 1 else 0

/-- The pre-clip review cost of `estimate_review_minutes` in
`src/score_and_optimize.py` lines 14-16, where the follow-up bonus is
`followup_flag.astype(int) * 2` on the integer flag column. -/
def reviewMinutesBaseFlag (insuranceType : Option String) (flag : ℤ) : ℤ :=
  10 + (if strContainsCI (pdAstypeStr insuranceType) "Commercial" then 1 else 0) * 3 + flag * 2

/-- `estimate_review_minutes` (`src/score_and_optimize.py` lines 13-17). -/
def estimate_review_minutes_flag (insuranceType : Option String) (flag : ℤ) : ℤ :=
  clipInt 6 20 (reviewMinutesBaseFlag insuranceType flag)

/-- `estimate_recovery` (`src/score_and_optimize.py` lines 19-22):
`pd.to_numeric(..., errors="coerce").fillna(0)` is `Option.getD 0`, and
`(allowed - paid).clip(lower=0)` is `max _ 0`. -/
def estimate_recovery (allowed paid : Option ℚ) : ℚ :=
  max (allowed.getD 0 - paid.getD 0) 0

/-- `expected_value` (`src/score_and_optimize.py` line 47):
denial probability times estimated recovery. -/
def expectedValue (denial_prob recovery : ℚ) : ℚ := denial_prob * recovery

/-- `Series.replace(0, 1)` applied to the review-minutes divisor
(`app/streamlit_app.py` line 175, `src/score_and_optimize.py` line 48). -/
def replaceZeroOne (m : ℤ) : ℤ := if m = 0 then 1 else m

/-- `priority_score` (`app/streamlit_app.py` line 175):
`denial_prob / review_minutes.replace(0, 1)`. -/
def priority_score (denial_prob : ℚ) (review_minutes : ℤ) : ℚ :=
  denial_prob / (replaceZeroOne review_minutes : ℚ)

/-- `value_per_minute` (`src/score_and_optimize.py` line 48):
`expected_value / review_minutes.replace(0, 1)`. -/
def value_per_minute (ev : ℚ) (review_minutes : ℤ) : ℚ :=
  ev / (replaceZeroOne review_minutes : ℚ)

/-- The loop body of `greedy_select` (`app/streamlit_app.py` lines 38-47):
walk the rows in order keeping `used`; emit `True` and add the cost
exactly when `used + m <= minutes_budget`. -/
def greedyGo (budget : ℤ) (used : ℤ) : List ℤ → List Bool
  | [] => []
  | m :: rest =>
    if used + m ≤ budget then true :: greedyGo budget (used + m) rest
    else false :: greedyGo budget used rest

/-- `greedy_select` (`app/streamlit_app.py` lines 38-47): the forward pass
started with `used = 0` over the row order of the (already sorted)
dataframe. -/
def greedy_select (minutes : List ℤ) (minutes_budget : ℤ) : List Bool :=
  greedyGo minutes_budget 0 minutes

/-- Sum of the entries of `xs` whose selection flag is set (extra entries
of either list beyond the common length are ignored, matching the
element-wise pandas masking). -/
def selSum {α : Type} [AddCommMonoid α] : List α → List Bool → α
  | x :: xs, b :: bs => (if b then x else 0) + selSum xs bs
  | _, _ => 0

/-- All 0/1 assignments to `n` binary decision variables, as lists of
booleans of length `n` (the search space of the knapsack ILP). -/
def allSelections : Nat → List (List Bool)
  | 0 => [[]]
  | n + 1 => ((allSelections n).map (List.cons true)) ++ ((allSelections n).map (List.cons false))

/-- The knapsack capacity constraint of the ILP
(`src/score_and_optimize.py` line 30): total selected minutes ≤ capacity. -/
def feasibleB (minutes : List ℤ) (capacity : ℤ) (s : List Bool) : Bool :=
  decide (selSum minutes s ≤ capacity)

/-- Keep whichever of two assignments has the larger objective value
(`src/score_and_optimize.py` line 29). -/
def pickBetter (values : List ℚ) (best cand : List Bool) : List Bool :=
  if selSum values best < selSum values cand then cand else best

/-- `optimize_knapsack` (`src/score_and_optimize.py` lines 24-33).  The
source formulates the 0/1 knapsack as an ILP — binary variables, objective
`Σ expected_value_i · x_i`, constraint `Σ minutes_i · x_i ≤ capacity` — and
hands it to the external exact MILP solver CBC, whose contract is to return
a feasible assignment maximizing the objective.  The embedding makes that
contract explicit: it enumerates every feasible assignment and keeps one of
maximal objective value (starting from the all-zero assignment). -/
def optimize_knapsack (values : List ℚ) (minutes : List ℤ) (capacity : ℤ) : List Bool :=
  ((allSelections values.length).filter (feasibleB minutes capacity)).foldl
    (pickBetter values) (List.replicate values.length false)

/-- One row of the dashboard dataframe as the sorting step sees it:
the claim identifier, the model's denial probability and the estimated
review minutes (`app/streamlit_app.py` lines 171-177). -/
structure Row where
  claim_id : String
  denial_prob : ℚ
  review_minutes : ℤ
deriving DecidableEq

/-- The sort key of `app/streamlit_app.py` line 175. -/
def rowKey (r : Row) : ℚ := priority_score r.denial_prob r.review_minutes

/-- The comparison used by the sort: descending on `priority_score` and on
nothing else — the source's `sort_values("priority_score", ascending=False)`
(line 177) consults no other column. -/
def rowGE (a b : Row) : Prop := rowKey b ≤ rowKey a

instance : DecidableRel rowGE := fun a b => inferInstanceAs (Decidable (rowKey b ≤ rowKey a))

instance : IsTotal Row rowGE := ⟨fun a b => le_total (rowKey b) (rowKey a)⟩

instance : IsTrans Row rowGE := ⟨fun _ _ _ h1 h2 => le_trans h2 h1⟩

/-- `df_f.sort_values("priority_score", ascending=False)`
(`app/streamlit_app.py` line 177).  pandas' default quicksort guarantees
nothing about the relative order of equal keys; the embedding fixes one
legal deterministic behaviour (a stable sort, ties keep input order).
Only the priority key is compared, exactly as in the source. -/
def sortByPriorityDesc (rows : List Row) : List Row :=
  List.insertionSort rowGE rows

/-! Helper lemmas about the greedy pass. -/

/-- The greedy pass never lets `used` plus the cost of what it selects
exceed the budget. -/
theorem greedyGo_selSum_le (budget : ℤ) :
    ∀ (ms : List ℤ) (used : ℤ), used ≤ budget →
      used + selSum ms (greedyGo budget used ms) ≤ budget
  | [], used, h => by simpa [greedyGo, selSum] using h
  | m :: rest, used, h => by
    by_cases hm : used + m ≤ budget
    · have ih := greedyGo_selSum_le budget rest (used + m) hm
      simpa [greedyGo, hm, selSum, add_assoc] using ih
    · have ih := greedyGo_selSum_le budget rest used h
      simpa [greedyGo, hm, selSum] using ih

/-- The greedy pass emits one flag per row. -/
theorem greedyGo_length (budget : ℤ) :
    ∀ (ms : List ℤ) (used : ℤ), (greedyGo budget used ms).length = ms.length
  | [], _ => rfl
  | m :: rest, used => by
    by_cases hm : used + m ≤ budget <;>
      simp [greedyGo, hm, greedyGo_length budget rest]

/-- Position-wise reading of the greedy pass: row `i` is selected exactly
when the minutes of the rows selected before it, plus its own minutes,
still fit the budget. -/
theorem greedyGo_char (budget : ℤ) :
    ∀ (ms : List ℤ) (used : ℤ) (i : Nat), i < ms.length →
      (greedyGo budget used ms).getD i false =
        decide (used + selSum (List.take i ms) (List.take i (greedyGo budget used ms))
          + ms.getD i 0 ≤ budget)
  | [], _, i, hi => absurd hi (by simp)
  | m :: rest, used, 0, _ => by
    by_cases hm : used + m ≤ budget <;> simp [greedyGo, hm, selSum]
  | m :: rest, used, i + 1, hi => by
    have hi' : i < rest.length := by simpa using hi
    by_cases hm : used + m ≤ budget
    · have hgo : greedyGo budget used (m :: rest) = true :: greedyGo budget (used + m) rest := by
        simp [greedyGo, hm]
      rw [hgo, List.getD_cons_succ, List.getD_cons_succ, List.take_succ_cons, List.take_succ_cons]
      rw [greedyGo_char budget rest (used + m) i hi']
      have harith :
          used + selSum (m :: List.take i rest)
              (true :: List.take i (greedyGo budget (used + m) rest)) + rest.getD i 0
          = used + m + selSum (List.take i rest) (List.take i (greedyGo budget (used + m) rest))
              + rest.getD i 0 := by
        simp [selSum]; ring
      rw [harith]
    · have hgo : greedyGo budget used (m :: rest) = false :: greedyGo budget used rest := by
        simp [greedyGo, hm]
      rw [hgo, List.getD_cons_succ, List.getD_cons_succ, List.take_succ_cons, List.take_succ_cons]
      rw [greedyGo_char budget rest used i hi']
      have harith :
          used + selSum (m :: List.take i rest)
              (false :: List.take i (greedyGo budget used rest)) + rest.getD i 0
          = used + selSum (List.take i rest) (List.take i (greedyGo budget used rest))
              + rest.getD i 0 := by
        simp [selSum]
      rw [harith]

/-- With a negative budget and non-negative costs, the greedy pass selects
nothing. -/
theorem greedyGo_neg_budget (budget : ℤ) (hb : budget < 0) :
    ∀ ms : List ℤ, (∀ x ∈ ms, 0 ≤ x) → greedyGo budget 0 ms = List.replicate ms.length false
  | [], _ => rfl
  | m :: rest, h => by
    have h0 : 0 ≤ m := h m (by simp)
    have hm : ¬ m ≤ budget := by omega
    have ih := greedyGo_neg_budget budget hb rest (fun x hx => h x (List.mem_cons_of_mem _ hx))
    simp [greedyGo, hm, List.replicate_succ, ih]

/-! Helper lemmas about the knapsack search space and the argmax fold. -/

/-- Masking with an all-false selection yields an empty sum. -/
theorem selSum_replicate_false {α : Type} [AddCommMonoid α] :
    ∀ (xs : List α) (n : Nat), selSum xs (List.replicate n false) = 0
  | [], _ => by cases ‹Nat› <;> rfl
  | _ :: _, 0 => rfl
  | x :: xs, n + 1 => by
    simp [List.replicate_succ, selSum, selSum_replicate_false xs n]

/-- `allSelections n` holds exactly the boolean vectors of length `n`. -/
theorem mem_allSelections : ∀ (n : Nat) (s : List Bool), s ∈ allSelections n ↔ s.length = n
  | 0, s => by
    constructor
    · intro h
      simp [allSelections] at h
      simp [h]
    · intro h
      have : s = [] := List.eq_nil_of_length_eq_zero h
      simp [this, allSelections]
  | n + 1, s => by
    constructor
    · intro h
      simp only [allSelections, List.mem_append, List.mem_map] at h
      rcases h with ⟨t, ht, rfl⟩ | ⟨t, ht, rfl⟩ <;>
        simp [(mem_allSelections n t).mp ht]
    · intro h
      rcases s with _ | ⟨b, t⟩
      · simp at h
      · have ht : t ∈ allSelections n := (mem_allSelections n t).mpr (by simpa using h)
        have hmem : b :: t ∈
            ((allSelections n).map (List.cons true)) ++ ((allSelections n).map (List.cons false)) := by
          cases b
          · exact List.mem_append.mpr (Or.inr (List.mem_map.mpr ⟨t, ht, rfl⟩))
          · exact List.mem_append.mpr (Or.inl (List.mem_map.mpr ⟨t, ht, rfl⟩))
        simpa [allSelections] using hmem

/-- The argmax fold never decreases the objective relative to its seed. -/
theorem selSum_le_foldl_pickBetter (v : List ℚ) :
    ∀ (l : List (List Bool)) (init : List Bool),
      selSum v init ≤ selSum v (l.foldl (pickBetter v) init)
  | [], _ => le_refl _
  | c :: l, init => by
    refine le_trans ?_ (selSum_le_foldl_pickBetter v l (pickBetter v init c))
    by_cases h : selSum v init < selSum v c
    · simp only [pickBetter, if_pos h]
      exact le_of_lt h
    · simp [pickBetter, h]

/-- The argmax fold dominates every candidate in the list. -/
theorem mem_le_foldl_pickBetter (v : List ℚ) :
    ∀ (l : List (List Bool)) (init : List Bool) (s : List Bool), s ∈ l →
      selSum v s ≤ selSum v (l.foldl (pickBetter v) init)
  | c :: l, init, s, hs => by
    rcases List.mem_cons.mp hs with h | h
    · subst h
      refine le_trans ?_ (selSum_le_foldl_pickBetter v l (pickBetter v init s))
      by_cases hlt : selSum v init < selSum v s
      · simp [pickBetter, hlt]
      · simp only [pickBetter, if_neg hlt]
        exact le_of_not_lt hlt
    · exact mem_le_foldl_pickBetter v l (pickBetter v init c) s h

/-- The argmax fold returns its seed or a member of the candidate list. -/
theorem foldl_pickBetter_mem (v : List ℚ) :
    ∀ (l : List (List Bool)) (init : List Bool),
      l.foldl (pickBetter v) init = init ∨ l.foldl (pickBetter v) init ∈ l
  | [], _ => Or.inl rfl
  | c :: l, init => by
    rw [List.foldl_cons]
    rcases foldl_pickBetter_mem v l (pickBetter v init c) with h | h
    · rw [h]
      by_cases hlt : selSum v init < selSum v c
      · exact Or.inr (by simp [pickBetter, hlt])
      · exact Or.inl (by simp [pickBetter, hlt])
    · exact Or.inr (List.mem_cons_of_mem _ h)

/-- The embedded knapsack solution satisfies the capacity constraint. -/
theorem optimize_knapsack_feasible (v : List ℚ) (m : List ℤ) (cap : ℤ) (hcap : 0 ≤ cap) :
    selSum m (optimize_knapsack v m cap) ≤ cap := by
  unfold optimize_knapsack
  rcases foldl_pickBetter_mem v ((allSelections v.length).filter (feasibleB m cap))
      (List.replicate v.length false) with h | h
  · rw [h, selSum_replicate_false]
    exact hcap
  · have hf := List.of_mem_filter h
    simpa [feasibleB] using hf

/-- The embedded knapsack solution assigns one flag per claim. -/
theorem optimize_knapsack_length (v : List ℚ) (m : List ℤ) (cap : ℤ) :
    (optimize_knapsack v m cap).length = v.length := by
  unfold optimize_knapsack
  rcases foldl_pickBetter_mem v ((allSelections v.length).filter (feasibleB m cap))
      (List.replicate v.length false) with h | h
  · rw [h]
    exact List.length_replicate ..
  · exact (mem_allSelections _ _).mp (List.mem_of_mem_filter h)

/-- The embedded knapsack solution dominates every feasible assignment. -/
theorem optimize_knapsack_opt (v : List ℚ) (m : List ℤ) (cap : ℤ)
    (s : List Bool) (hlen : s.length = v.length) (hfeas : selSum m s ≤ cap) :
    selSum v s ≤ selSum v (optimize_knapsack v m cap) := by
  unfold optimize_knapsack
  apply mem_le_foldl_pickBetter
  apply List.mem_filter.mpr
  refine ⟨(mem_allSelections _ _).mpr hlen, ?_⟩
  simpa [feasibleB] using hfeas

/-- The clip keeps its output between its bounds. -/
theorem clipInt_bounds (lo hi x : ℤ) (h : lo ≤ hi) :
    lo ≤ clipInt lo hi x ∧ clipInt lo hi x ≤ hi := by
  unfold clipInt
  exact ⟨le_max_left _ _, max_le h (min_le_left _ _)⟩

/-! Claim theorems. -/

/-- C1: for every claim set and every (non-negative, as the data model
requires) budget, both the greedy pass of `greedy_select` and the exact
knapsack of `optimize_knapsack` return a selection whose total review-cost
minutes do not exceed the budget. -/
theorem C1_feasibility (values : List ℚ) (minutes : List ℤ) (budget : ℤ) (hb : 0 ≤ budget) :
    selSum minutes (greedy_select minutes budget) ≤ budget ∧
    selSum minutes (optimize_knapsack values minutes budget) ≤ budget := by
  constructor
  · have h := greedyGo_selSum_le budget minutes 0 hb
    simpa [greedy_select] using h
  · exact optimize_knapsack_feasible values minutes budget hb

/-- Witness for C1 at a concrete instance. -/
theorem C1_feasibility_witness :
    (0 : ℤ) ≤ 10 ∧
    selSum [(6 : ℤ), 5] (greedy_select [6, 5] 10) ≤ 10 ∧
    selSum [(6 : ℤ), 5] (optimize_knapsack [4, 3] [6, 5] 10) ≤ 10 :=
  ⟨by norm_num, (C1_feasibility [4, 3] [6, 5] 10 (by norm_num)).1,
    (C1_feasibility [4, 3] [6, 5] 10 (by norm_num)).2⟩

/-- C2: with positive integer costs and a non-negative integer budget, the
Exact strategy is feasible and its total expected value dominates that of
every feasible 0/1 selection — i.e. it attains the brute-force knapsack
optimum. -/
theorem C2_exact_optimal (values : List ℚ) (minutes : List ℤ) (budget : ℤ)
    (_hpos : ∀ m ∈ minutes, 0 < m) (hb : 0 ≤ budget) :
    selSum minutes (optimize_knapsack values minutes budget) ≤ budget ∧
    ∀ s : List Bool, s.length = values.length → selSum minutes s ≤ budget →
      selSum values s ≤ selSum values (optimize_knapsack values minutes budget) := by
  refine ⟨optimize_knapsack_feasible values minutes budget hb, ?_⟩
  intro s hlen hfeas
  exact optimize_knapsack_opt values minutes budget s hlen hfeas

/-- Witness for C2 at a concrete instance. -/
theorem C2_exact_optimal_witness :
    (∀ m ∈ ([2, 3] : List ℤ), 0 < m) ∧ (0 : ℤ) ≤ 4 ∧
    ([true, false] : List Bool).length = ([5, 3] : List ℚ).length ∧
    selSum [(2 : ℤ), 3] [true, false] ≤ 4 ∧
    selSum [(5 : ℚ), 3] [true, false] ≤ selSum [(5 : ℚ), 3] (optimize_knapsack [5, 3] [2, 3] 4) :=
  ⟨by decide, by norm_num, by norm_num, by decide,
    (C2_exact_optimal [5, 3] [2, 3] 4 (by decide) (by norm_num)).2 [true, false]
      (by norm_num) (by decide)⟩

/-- C5 counterexample: the original claim fails for the Greedy strategy.
Two claims, in an order consistent with the dashboard's descending
`priority_score` sort (keys 9/100 ≥ 2/25): at budget 5 the greedy pass
selects the second claim (expected value 500), at the larger budget 10 it
selects the first (expected value 9/10), so raising the budget from 5 to
10 strictly decreases the achieved expected value. -/
theorem C5_counterexample :
    priority_score (2/5) 5 ≤ priority_score (9/10) 10 ∧
    (5 : ℤ) ≤ 10 ∧
    selSum [expectedValue (9/10) 1, expectedValue (2/5) 1250] (greedy_select [10, 5] 10)
      < selSum [expectedValue (9/10) 1, expectedValue (2/5) 1250] (greedy_select [10, 5] 5) := by
  norm_num [priority_score, replaceZeroOne, expectedValue, greedy_select, greedyGo, selSum]

/-- C5 amended: the achieved expected value of the Exact strategy is
monotone non-decreasing in the budget; the Greedy strategy's achieved
value is not monotone (see the counterexample). -/
theorem C5_amended_monotone (values : List ℚ) (minutes : List ℤ) (b b' : ℤ)
    (hb : 0 ≤ b) (hbb : b ≤ b') :
    selSum values (optimize_knapsack values minutes b)
      ≤ selSum values (optimize_knapsack values minutes b') := by
  apply optimize_knapsack_opt
  · exact optimize_knapsack_length values minutes b
  · exact le_trans (optimize_knapsack_feasible values minutes b hb) hbb

/-- Witness for the amended C5 at a concrete instance. -/
theorem C5_amended_monotone_witness :
    (0 : ℤ) ≤ 2 ∧ (2 : ℤ) ≤ 4 ∧
    selSum [(5 : ℚ), 3] (optimize_knapsack [5, 3] [2, 3] 2)
      ≤ selSum [(5 : ℚ), 3] (optimize_knapsack [5, 3] [2, 3] 4) :=
  ⟨by norm_num, by norm_num,
    C5_amended_monotone [5, 3] [2, 3] 2 4 (by norm_num) (by norm_num)⟩

/-- C6 counterexample: the selection entry points validate nothing.  With
the negative budget −3 the greedy pass does not signal any error — it is
total and returns the ordinary selection `[false]`. -/
theorem C6_counterexample :
    greedy_select [5] (-3) = [false] ∧ selSum [(5 : ℤ)] (greedy_select [5] (-3)) = 0 := by
  decide

/-- C6 amended: no `InvalidInput` signalling exists in the code; invalid
inputs are processed like any others.  In particular a negative budget
(with the non-negative costs the estimators produce) silently yields the
all-unselected result instead of an error, and neither non-positive costs
nor duplicate claim ids are checked anywhere. -/
theorem C6_amended_no_validation (minutes : List ℤ) (budget : ℤ)
    (hneg : budget < 0) (hnn : ∀ m ∈ minutes, 0 ≤ m) :
    greedy_select minutes budget = List.replicate minutes.length false := by
  unfold greedy_select
  exact greedyGo_neg_budget budget hneg minutes hnn

/-- Witness for the amended C6 at a concrete instance. -/
theorem C6_amended_no_validation_witness :
    (-3 : ℤ) < 0 ∧ (∀ m ∈ ([5] : List ℤ), 0 ≤ m) ∧
    greedy_select [5] (-3) = List.replicate 1 false :=
  ⟨by norm_num, by decide, C6_amended_no_validation [5] (-3) (by norm_num) (by decide)⟩

/-- C3 counterexample: the priority key the dashboard actually computes is
`denial_prob / review_minutes`, not `expected_value / cost` and not plain
`expected_value`.  For a claim with denial probability 1/2, review minutes
10 and estimated recovery 100, the code's key is 1/20 while the claimed
ratio key is 5 and the claimed value-first key is 50. -/
theorem C3_counterexample :
    priority_score (1/2) 10 ≠
      expectedValue (1/2) (estimate_recovery (some 100) (some 0)) / ((10 : ℤ) : ℚ) ∧
    priority_score (1/2) 10 ≠ expectedValue (1/2) (estimate_recovery (some 100) (some 0)) := by
  constructor <;>
    norm_num [priority_score, replaceZeroOne, expectedValue, estimate_recovery, Option.getD]

/-- C3 amended: the Greedy call site computes a priority key equal to
`denial_probability / cost` (with a zero divisor replaced by 1), sorts
descending by that key, and then makes a single forward pass maintaining
`used_minutes`, selecting claim `i` iff the minutes of the claims selected
before it plus its own minutes fit the budget — no backtracking, no
re-insertion of skipped claims. -/
theorem C3_amended_greedy (minutes : List ℤ) (budget : ℤ) :
    (∀ (p : ℚ) (m : ℤ), m ≠ 0 → priority_score p m = p / (m : ℚ)) ∧
    (∀ p : ℚ, priority_score p 0 = p / 1) ∧
    (greedy_select minutes budget).length = minutes.length ∧
    ∀ i, i < minutes.length →
      (greedy_select minutes budget).getD i false =
        decide (selSum (List.take i minutes) (List.take i (greedy_select minutes budget))
          + minutes.getD i 0 ≤ budget) := by
  refine ⟨?_, ?_, ?_, ?_⟩
  · intro p m hm
    simp [priority_score, replaceZeroOne, hm]
  · intro p
    simp [priority_score, replaceZeroOne]
  · exact greedyGo_length budget minutes 0
  · intro i hi
    have h := greedyGo_char budget minutes 0 i hi
    simpa [greedy_select] using h

/-- Witness for the amended C3 at a concrete instance. -/
theorem C3_amended_greedy_witness :
    priority_score (1/2) 10 = (1/2) / ((10 : ℤ) : ℚ) ∧
    (greedy_select [10, 5] 12).length = 2 ∧
    (greedy_select [10, 5] 12).getD 1 false =
      decide (selSum (List.take 1 [(10 : ℤ), 5]) (List.take 1 (greedy_select [10, 5] 12))
        + ([(10 : ℤ), 5]).getD 1 0 ≤ 12) :=
  ⟨(C3_amended_greedy [10, 5] 12).1 (1/2) 10 (by norm_num),
   (C3_amended_greedy [10, 5] 12).2.2.1,
   (C3_amended_greedy [10, 5] 12).2.2.2 1 (by norm_num)⟩

/-- C4 counterexample: the sort consults only `priority_score`, so on an
exact key tie the lower-cost claim is NOT moved first.  Rows A (cost 12)
and B (cost 10) tie at key 1/25; sorting leaves A before B although the
claim requires B (lower cost) first. -/
theorem C4_counterexample :
    rowKey ⟨"A", 12/25, 12⟩ = rowKey ⟨"B", 2/5, 10⟩ ∧
    (⟨"B", 2/5, 10⟩ : Row).review_minutes < (⟨"A", 12/25, 12⟩ : Row).review_minutes ∧
    sortByPriorityDesc [⟨"A", 12/25, 12⟩, ⟨"B", 2/5, 10⟩]
      = [⟨"A", 12/25, 12⟩, ⟨"B", 2/5, 10⟩] := by
  refine ⟨?_, by norm_num, ?_⟩
  · norm_num [rowKey, priority_score, replaceZeroOne]
  · have hr : rowGE (⟨"A", 12/25, 12⟩ : Row) ⟨"B", 2/5, 10⟩ := by
      norm_num [rowGE, rowKey, priority_score, replaceZeroOne]
    simp [sortByPriorityDesc, List.insertionSort, List.orderedInsert, hr]

/-- C4 amended: the sort orders the rows descending by the priority key and
by nothing else — its comparison relation is exactly `rowKey b ≤ rowKey a`;
equal-key rows are left in whatever relative order the underlying sort
produces (input order in this embedding), with no cost or claim-id
tie-break. -/
theorem C4_amended_sort (rows : List Row) :
    List.Sorted rowGE (sortByPriorityDesc rows) ∧
    (sortByPriorityDesc rows).Perm rows ∧
    ∀ a b : Row, rowGE a b ↔ rowKey b ≤ rowKey a :=
  ⟨List.sorted_insertionSort rowGE rows, List.perm_insertionSort rowGE rows,
    fun _ _ => Iff.rfl⟩

/-- C7: the estimated review cost is the base 10, plus 3 iff the insurance
type contains a case-insensitive "commercial" marker, plus 2 iff the
follow-up field is affirmative, clipped to [6, 20]; a missing attribute
(rendered "nan" by `astype(str)`) earns no bonus, and the estimator is a
total function.  Both the dashboard estimator (follow-up string equal to
"yes" after lowering) and the pipeline estimator (integer `followup_flag`)
are covered. -/
theorem C7_cost_estimator (it fu : Option String) :
    estimate_review_minutes it fu =
      clipInt 6 20 (10 + (if strContainsCI (pdAstypeStr it) "Commercial" then 3 else 0)
        + (if strToLower (pdAstypeStr fu) == "yes" then 2 else 0)) ∧
    6 ≤ estimate_review_minutes it fu ∧ estimate_review_minutes it fu ≤ 20 ∧
    estimate_review_minutes none none = 10 ∧
    estimate_review_minutes_flag it (followup_flag fu) =
      clipInt 6 20 (10 + (if strContainsCI (pdAstypeStr it) "Commercial" then 3 else 0)
        + (if strToLower (strTrim (pdAstypeStr fu)) ∈ (["yes", "y", "true", "1"] : List String)
            then 2 else 0)) := by
  refine ⟨?_, ?_, ?_, by decide, ?_⟩
  · unfold estimate_review_minutes reviewMinutesBase
    by_cases h1 : strContainsCI (pdAstypeStr it) "Commercial" <;>
      by_cases h2 : strToLower (pdAstypeStr fu) == "yes" <;> simp [h1, h2]
  · exact (clipInt_bounds 6 20 (reviewMinutesBase it fu) (by norm_num)).1
  · exact (clipInt_bounds 6 20 (reviewMinutesBase it fu) (by norm_num)).2
  · unfold estimate_review_minutes_flag reviewMinutesBaseFlag followup_flag
    by_cases h1 : strContainsCI (pdAstypeStr it) "Commercial" <;>
      by_cases h2 : strToLower (strTrim (pdAstypeStr fu)) ∈ (["yes", "y", "true", "1"] : List String) <;>
      simp [h1, h2]

/-- C8: the value estimator clips negative differences to zero — recovery
is `max (allowed − paid) 0`, never negative — a missing amount defaults to
0 before the subtraction, and the expected value is the product of the
denial probability with the recovery; the estimator is a total function. -/
theorem C8_value_estimator (p : ℚ) (a pa : Option ℚ) :
    0 ≤ estimate_recovery a pa ∧
    estimate_recovery a pa = max (a.getD 0 - pa.getD 0) 0 ∧
    estimate_recovery none pa = max (0 - pa.getD 0) 0 ∧
    estimate_recovery a none = max (a.getD 0 - 0) 0 ∧
    expectedValue p (estimate_recovery a pa) = p * estimate_recovery a pa :=
  ⟨le_max_right _ _, rfl, rfl, rfl, rfl⟩

/-- C9: the pre-clip cost always lies in {10, 12, 13, 15} (for both
estimator variants, the pipeline one fed by the 0/1 `followup_flag`), so
`np.clip(_, 6, 20)` is the identity on every reachable value and the
returned cost lies in [10, 15]; the clip bounds (raw 25 or raw 2) are
unreachable. -/
theorem C9_preclip (it fu : Option String) :
    (reviewMinutesBase it fu = 10 ∨ reviewMinutesBase it fu = 12 ∨
      reviewMinutesBase it fu = 13 ∨ reviewMinutesBase it fu = 15) ∧
    estimate_review_minutes it fu = reviewMinutesBase it fu ∧
    10 ≤ estimate_review_minutes it fu ∧ estimate_review_minutes it fu ≤ 15 ∧
    estimate_review_minutes_flag it (followup_flag fu) = reviewMinutesBaseFlag it (followup_flag fu) ∧
    (reviewMinutesBaseFlag it (followup_flag fu) = 10 ∨
      reviewMinutesBaseFlag it (followup_flag fu) = 12 ∨
      reviewMinutesBaseFlag it (followup_flag fu) = 13 ∨
      reviewMinutesBaseFlag it (followup_flag fu) = 15) := by
  have hflag : followup_flag fu = 0 ∨ followup_flag fu = 1 := by
    unfold followup_flag
    by_cases h : strToLower (strTrim (pdAstypeStr fu)) ∈ (["yes", "y", "true", "1"] : List String) <;>
      simp [h]
  have hbase : reviewMinutesBase it fu = 10 ∨ reviewMinutesBase it fu = 12 ∨
      reviewMinutesBase it fu = 13 ∨ reviewMinutesBase it fu = 15 := by
    unfold reviewMinutesBase
    by_cases h1 : strContainsCI (pdAstypeStr it) "Commercial" <;>
      by_cases h2 : strToLower (pdAstypeStr fu) == "yes" <;> simp [h1, h2]
  have hbasef : reviewMinutesBaseFlag it (followup_flag fu) = 10 ∨
      reviewMinutesBaseFlag it (followup_flag fu) = 12 ∨
      reviewMinutesBaseFlag it (followup_flag fu) = 13 ∨
      reviewMinutesBaseFlag it (followup_flag fu) = 15 := by
    unfold reviewMinutesBaseFlag
    rcases hflag with h | h <;> rw [h] <;>
      by_cases h1 : strContainsCI (pdAstypeStr it) "Commercial" <;> simp [h1]
  have hclip : ∀ x : ℤ, x = 10 ∨ x = 12 ∨ x = 13 ∨ x = 15 → clipInt 6 20 x = x := by
    rintro x (rfl | rfl | rfl | rfl) <;> rfl
  have he : estimate_review_minutes it fu = reviewMinutesBase it fu := hclip _ hbase
  have hef : estimate_review_minutes_flag it (followup_flag fu)
      = reviewMinutesBaseFlag it (followup_flag fu) := hclip _ hbasef
  refine ⟨hbase, he, ?_, ?_, hef, hbasef⟩
  · rw [he]; rcases hbase with h | h | h | h <;> rw [h] <;> norm_num
  · rw [he]; rcases hbase with h | h | h | h <;> rw [h] <;> norm_num

/-- C10: the review-cost estimators never return 0 (their output is at
least 6), so the `replace(0, 1)` guard in both per-minute priority
computations is the identity on estimator-produced costs and the priority
ratio is the plain quotient by the estimated minutes. -/
theorem C10_no_div_zero (p ev : ℚ) (it fu : Option String) :
    estimate_review_minutes it fu ≠ 0 ∧
    replaceZeroOne (estimate_review_minutes it fu) = estimate_review_minutes it fu ∧
    priority_score p (estimate_review_minutes it fu) = p / ((estimate_review_minutes it fu : ℤ) : ℚ) ∧
    estimate_review_minutes_flag it (followup_flag fu) ≠ 0 ∧
    value_per_minute ev (estimate_review_minutes_flag it (followup_flag fu)) =
      ev / ((estimate_review_minutes_flag it (followup_flag fu) : ℤ) : ℚ) := by
  have h6 : 6 ≤ estimate_review_minutes it fu :=
    (clipInt_bounds 6 20 (reviewMinutesBase it fu) (by norm_num)).1
  have h6f : 6 ≤ estimate_review_minutes_flag it (followup_flag fu) :=
    (clipInt_bounds 6 20 (reviewMinutesBaseFlag it (followup_flag fu)) (by norm_num)).1
  have hne : estimate_review_minutes it fu ≠ 0 := by omega
  have hnef : estimate_review_minutes_flag it (followup_flag fu) ≠ 0 := by omega
  refine ⟨hne, ?_, ?_, hnef, ?_⟩
  · simp [replaceZeroOne, hne]
  · simp [priority_score, replaceZeroOne, hne]
  · simp [value_per_minute, replaceZeroOne, hnef]

end DenialRisk
